import Mathlib

/-!
# ReviewScope — verification of the core pipeline

Shallow embedding of `src/server/server.js` (class `ReviewAnalyzer`) and the
claims-relevant parts of `src/server/test-urls.js`.  The embedding covers:

* `parseGoogleMapsUrl` (UrlResolver), including a model of the WHATWG `URL`
  constructor, `decodeURIComponent` and `URLSearchParams.get` restricted to
  the ASCII inputs exercised here;
* `getPlaceReviews` (ReviewFetcher) from the point where a successful
  place-detail provider response is in hand;
* `analyzeReviews` (AnalysisEngine) with the generative provider abstracted
  as an outcome (throw or response text) and `JSON.parse` abstracted as a
  parameter, plus an executable miniature JSON parser for concrete runs;
* `generateFallbackAnalysis` (FallbackAnalyzer).

JavaScript numbers are modelled with `Nat` arithmetic: the only fractional
values the program produces are `avgRating` (printed via `toFixed(1)`) and a
percentage (via `Math.round`), both of which are embedded as exact rational
rounding on numerator/denominator pairs (`toFixed1Nat`, `roundPct`).
-/

namespace ReviewScope

/-! ## Generic string helpers (JS built-ins) -/

/-- Whitespace stripped by JavaScript `String.prototype.trim` (ASCII scope:
space, tab, newline, carriage return, form feed, vertical tab). -/
def isJsWs (c : Char) : Bool :=
  c = ' ' || c = '\t' || c = '\n' || c = '\r' || c = Char.ofNat 12 || c = Char.ofNat 11

/-- `trim` on a character list: drop `isJsWs` from both ends. -/
def jsTrimList (l : List Char) : List Char :=
  ((l.dropWhile isJsWs).reverse.dropWhile isJsWs).reverse

/-- Model of JavaScript `String.prototype.trim`. -/
def jsTrimStr (s : String) : String :=
  String.mk (jsTrimList s.data)

/-- Model of `str.toLowerCase()` (ASCII scope). -/
def strToLower (s : String) : String :=
  String.mk (s.data.map Char.toLower)

/-- `pre` is a prefix of `l` (decidable, Bool-valued). -/
def startsWithChars : List Char → List Char → Bool
  | [], _ => true
  | _ :: _, [] => false
  | a :: as, b :: bs => a = b && startsWithChars as bs

/-- `nee` occurs as a contiguous substring of `hay`
(model of JavaScript `String.prototype.includes`). -/
def subOccurs (nee : List Char) : List Char → Bool
  | [] => nee.isEmpty
  | c :: t => startsWithChars nee (c :: t) || subOccurs nee t

/-- `hay.includes(nee)` for strings. -/
def strHasSub (hay nee : String) : Bool :=
  subOccurs nee.data hay.data

/-- Model of `str.replace(/\+/g, ' ')`: every `+` becomes a space. -/
def plusToSpace (s : String) : String :=
  String.mk (s.data.map (fun c => if c = '+' then ' ' else c))

/-! ## Rounding helpers for the two float-formatting sites

`generateFallbackAnalysis` prints `avgRating.toFixed(1)` and
`Math.round(pct)`.  Both ECMA operations round to the nearest value, ties
toward the larger result, which for nonnegative rationals `num/den` is
`⌊(q * base + 1/2)⌋`.  The embedding computes this exactly on `Nat`
numerator/denominator pairs (the double-precision evaluation agrees at every
concrete input used below). -/

/-- `(num / den).toFixed(1)` for nonnegative `num/den`, `den ≠ 0`. -/
def toFixed1Nat (num den : Nat) : String :=
  let n := (20 * num + den) / (2 * den)
  toString (n / 10) ++ "." ++ toString (n % 10)

/-- `Math.round((pos / len) * 100)` for `len ≠ 0`. -/
def roundPct (pos len : Nat) : Nat :=
  (200 * pos + len) / (2 * len)

/-! ## Data model -/

/-- A JSON value as produced by `JSON.parse` / consumed by the validator.
JSON numbers are modelled as integers (every number this program produces or
consumes in the claim scope is an integer). -/
inductive Json where
  | null : Json
  | bool : Bool → Json
  | num : Int → Json
  | str : String → Json
  | arr : List Json → Json
  | obj : List (String × Json) → Json
deriving Repr

/-- Last-wins field lookup, matching how `JSON.parse` resolves duplicate
object keys in JavaScript. -/
def lookupField : List (String × Json) → String → Option Json
  | [], _ => none
  | (k, v) :: rest, name =>
    match lookupField rest name with
    | some v' => some v'
    | none => if k = name then some v else none

/-- `obj.field` access: `none` models JavaScript `undefined`. -/
def Json.getField : Json → String → Option Json
  | .obj fields, name => lookupField fields name
  | _, _ => none

/-- JavaScript truthiness of a JSON value. -/
def Json.truthy : Json → Bool
  | .null => false
  | .bool b => b
  | .num q => !(q = 0)
  | .str s => !(s = "")
  | .arr _ => true
  | .obj _ => true

/-- Projection used to state claims about string-valued fields. -/
def Json.asString : Json → Option String
  | .str s => some s
  | _ => none

/-- A mapped review, as produced by `getPlaceReviews`
(`{ text, rating, time }`). -/
structure Review where
  text : String
  rating : Option Nat
  time : Option String
deriving Repr, DecidableEq

/-- The validated analysis object assembled by `analyzeReviews` /
`generateFallbackAnalysis`.  All six list-typed fields are genuine lists by
construction — the JavaScript validator guarantees the same shape. -/
structure AnalysisResult where
  overallSentiment : Json
  topicSummaries : List Json
  keyInsights : List Json
  commonPhrases : List Json
  customerPainPoints : List Json
  positiveHighlights : List Json
  recommendations : List Json
deriving Repr

/-! ## FallbackAnalyzer (`generateFallbackAnalysis`, server.js lines 281-324) -/

/-- `reviews.reduce((sum, r) => sum + (r.rating || 0), 0)`. -/
def fallbackTotalRating (reviews : List Review) : Nat :=
  reviews.foldl (fun sum r => sum + r.rating.getD 0) 0

/-- `reviews.filter(r => (r.rating || 0) >= 4).length`. -/
def fallbackPositiveCount (reviews : List Review) : Nat :=
  (reviews.filter (fun r => 4 ≤ r.rating.getD 0)).length

/-- `reviews.filter(r => (r.rating || 0) <= 2).length`. -/
def fallbackNegativeCount (reviews : List Review) : Nat :=
  (reviews.filter (fun r => r.rating.getD 0 ≤ 2)).length

/-- The sentiment ladder of the fallback analyzer. -/
def fallbackSentiment (reviews : List Review) : String :=
  if fallbackPositiveCount reviews > fallbackNegativeCount reviews * 2 then "positive"
  else if fallbackNegativeCount reviews > fallbackPositiveCount reviews * 2 then "negative"
  else "mixed"

/-- `reviews.map(r => r.text.toLowerCase()).join(' ')`. -/
def fallbackAllText (reviews : List Review) : String :=
  String.intercalate " " (reviews.map (fun r => strToLower r.text))

/-- The fixed positive keyword list. -/
def commonWords : List String :=
  ["great", "good", "excellent", "amazing", "love", "best", "perfect"]

/-- The fixed negative keyword list. -/
def negativeWords : List String :=
  ["bad", "terrible", "awful", "worst", "hate", "disappointing"]

/-- `commonWords.filter(word => allText.includes(word))`. -/
def foundPositiveWords (reviews : List Review) : List String :=
  commonWords.filter (fun w => strHasSub (fallbackAllText reviews) w)

/-- `negativeWords.filter(word => allText.includes(word))`. -/
def foundNegativeWords (reviews : List Review) : List String :=
  negativeWords.filter (fun w => strHasSub (fallbackAllText reviews) w)

/-- The deterministic fallback analysis (server.js lines 281-324).  The
`placeName` parameter is accepted and unused, exactly as in the source. -/
def generateFallbackAnalysis (_placeName : String) (reviews : List Review) :
    AnalysisResult :=
  let totalRating := fallbackTotalRating reviews
  let n := reviews.length
  let positiveReviews := fallbackPositiveCount reviews
  let negativeReviews := fallbackNegativeCount reviews
  let foundPositive := foundPositiveWords reviews
  let foundNegative := foundNegativeWords reviews
  { overallSentiment := Json.str (fallbackSentiment reviews)
    topicSummaries := [Json.obj
      [("topic", Json.str "Overall Experience"),
       ("summary", Json.str ("Based on " ++ toString n ++
          " reviews with an average rating of " ++ toFixed1Nat totalRating n ++
          "/5 stars. " ++ toString positiveReviews ++ " positive reviews vs " ++
          toString negativeReviews ++ " negative reviews.")),
       ("mentionCount", Json.num n)]]
    keyInsights :=
      [Json.str ("Average rating: " ++ toFixed1Nat totalRating n ++ "/5 stars"),
       Json.str (toString (roundPct positiveReviews n) ++
          "% of reviews are positive (4+ stars)"),
       Json.str ("Analyzed " ++ toString n ++
          " customer reviews for patterns and sentiment")]
    commonPhrases :=
      if foundPositive.length > 0 then (foundPositive.take 5).map Json.str
      else [Json.str "N/A"]
    customerPainPoints :=
      if foundNegative.length > 0 then (foundNegative.take 3).map Json.str
      else [Json.str "No major pain points identified"]
    positiveHighlights :=
      if foundPositive.length > 0 then
        [Json.str ("Customers frequently mention: " ++
          String.intercalate ", " foundPositive)]
      else [Json.str "Generally positive customer feedback"]
    recommendations :=
      [Json.str "Run a full AI analysis for detailed insights",
       Json.str (if 2 * totalRating < 7 * n then "Focus on addressing customer concerns"
         else "Continue maintaining quality standards")] }

/-! ## AnalysisEngine (`analyzeReviews`, server.js lines 194-278) -/

/-- What the generative-analysis provider call resolves to: an exception
(network failure, provider error) or a free-text response. -/
inductive ProviderOutcome where
  | throws : ProviderOutcome
  | responds : String → ProviderOutcome

/-- Drop leading JS whitespace (the `\s*` part of the fence-stripping
regexes). -/
def dropLeadingWs (l : List Char) : List Char :=
  l.dropWhile isJsWs

/-- Remove a trailing fenced-code marker: the `replace(/\s*```$/, '')` step.
The regex matches only when the string ends with three backticks; the match
also swallows the maximal whitespace run immediately before them. -/
def stripTrailingFence (l : List Char) : List Char :=
  let r := l.reverse
  if startsWithChars ("```".data.reverse) r then
    ((r.drop 3).dropWhile isJsWs).reverse
  else l

/-- Code-fence cleanup of the AI response (server.js lines 242-248):
if the trimmed response starts with a fence marker (with or without the
`json` tag), the marker plus following whitespace and a trailing marker are
removed; the second `if` re-tests the updated string as in the source. -/
def stripFences (s : String) : String :=
  let l := s.data
  let l := if startsWithChars ("```json".data) l then
      stripTrailingFence (dropLeadingWs (l.drop 7)) else l
  let l := if startsWithChars ("```".data) l then
      stripTrailingFence (dropLeadingWs (l.drop 3)) else l
  String.mk l

/-- Index of the last occurrence of `c` in `l`. -/
def lastIdxOf (c : Char) (l : List Char) : Option Nat :=
  match l.reverse.findIdx? (· = c) with
  | some k => some (l.length - 1 - k)
  | none => none

/-- The greedy `cleanResponse.match(/\{[\s\S]*\}/)` extraction: the match, if
any, runs from the first `{` to the last `}` of the whole string and
exists precisely when that last `}` lies after the first `{`. -/
def extractJsonCandidate (s : String) : Option String :=
  let cs := s.data
  match cs.findIdx? (· = '{'), lastIdxOf '}' cs with
  | some i, some j =>
    if i < j then some (String.mk ((cs.drop i).take (j - i + 1))) else none
  | _, _ => none

/-- Coerce an optional JSON field to a list exactly as
`Array.isArray(x) ? x : []` does. -/
def arrOrEmpty : Option Json → List Json
  | some (.arr xs) => xs
  | _ => []

/-- The mandatory validate/repair step (server.js lines 260-268):
`overallSentiment` falls back to `"mixed"` when absent or falsy
(`analysis.overallSentiment or else "mixed"`); each of the six list-typed fields
is kept only when it is actually an array. -/
def validateAnalysis (analysis : Json) : AnalysisResult :=
  { overallSentiment :=
      match analysis.getField "overallSentiment" with
      | some v => if v.truthy then v else Json.str "mixed"
      | none => Json.str "mixed"
    topicSummaries := arrOrEmpty (analysis.getField "topicSummaries")
    keyInsights := arrOrEmpty (analysis.getField "keyInsights")
    commonPhrases := arrOrEmpty (analysis.getField "commonPhrases")
    customerPainPoints := arrOrEmpty (analysis.getField "customerPainPoints")
    positiveHighlights := arrOrEmpty (analysis.getField "positiveHighlights")
    recommendations := arrOrEmpty (analysis.getField "recommendations") }

/-- The analysis engine (server.js lines 194-278).  The provider call is
abstracted as `outcome`; `JSON.parse` is abstracted as `parse` (a parse
failure, i.e. a thrown `SyntaxError`, is `none`).  Every failure branch —
thrown exception, brace-less response, unparseable extract — lands in
`generateFallbackAnalysis`; the function is total, so the engine never
propagates an error to its caller. -/
def analyzeReviews (parse : String → Option Json) (placeName : String)
    (reviews : List Review) (outcome : ProviderOutcome) : AnalysisResult :=
  match outcome with
  | .throws => generateFallbackAnalysis placeName reviews
  | .responds text =>
    let cleanResponse := stripFences (jsTrimStr text)
    match extractJsonCandidate cleanResponse with
    | none => generateFallbackAnalysis placeName reviews
    | some jsonStr =>
      match parse jsonStr with
      | none => generateFallbackAnalysis placeName reviews
      | some analysis => validateAnalysis analysis

/-- The primary path fails (and the engine must fall back) when the provider
throws, when the cleaned response has no brace-delimited candidate, or when
`JSON.parse` rejects the extracted candidate. -/
def primaryFails (parse : String → Option Json) : ProviderOutcome → Bool
  | .throws => true
  | .responds text =>
    match extractJsonCandidate (stripFences (jsTrimStr text)) with
    | none => true
    | some jsonStr => (parse jsonStr).isNone

/-! ## A concrete executable JSON parser

`JSON.parse` is a JavaScript built-in; the engine theorems quantify over the
parse function, and this small recursive-descent parser (strings with the
common escapes, integer numbers, booleans, null, arrays, objects) instantiates
them on concrete runs. -/

/-- Hexadecimal digit value. -/
def hexDigitVal (c : Char) : Option Nat :=
  if '0' ≤ c ∧ c ≤ '9' then some (c.toNat - 48)
  else if 'A' ≤ c ∧ c ≤ 'F' then some (c.toNat - 55)
  else if 'a' ≤ c ∧ c ≤ 'f' then some (c.toNat - 87)
  else none

/-- JSON insignificant whitespace. -/
def isJsonWs (c : Char) : Bool :=
  c = ' ' || c = '\t' || c = '\n' || c = '\r'

/-- Parse the body of a JSON string literal up to the closing quote. -/
def parseJsonString : Nat → List Char → Option (String × List Char)
  | 0, _ => none
  | _ + 1, [] => none
  | fuel + 1, c :: rest =>
    if c = '"' then some ("", rest)
    else if c = '\\' then
      match rest with
      | [] => none
      | e :: rest2 =>
        let dec : Option Char :=
          if e = '"' then some '"'
          else if e = '\\' then some '\\'
          else if e = '/' then some '/'
          else if e = 'n' then some '\n'
          else if e = 't' then some '\t'
          else if e = 'r' then some '\r'
          else none
        match dec with
        | none => none
        | some d =>
          match parseJsonString fuel rest2 with
          | some (s, rem) => some (String.mk (d :: s.data), rem)
          | none => none
    else
      match parseJsonString fuel rest with
      | some (s, rem) => some (String.mk (c :: s.data), rem)
      | none => none

/-- Parse a run of decimal digits. -/
def parseDigits : List Char → Option (Nat × List Char)
  | l =>
    let digits := l.takeWhile (fun c => '0' ≤ c ∧ c ≤ '9')
    if digits.isEmpty then none
    else some (digits.foldl (fun acc c => 10 * acc + (c.toNat - 48)) 0,
      l.dropWhile (fun c => '0' ≤ c ∧ c ≤ '9'))

mutual

/-- Parse one JSON value (integer-number subset). -/
def parseJsonValue : Nat → List Char → Option (Json × List Char)
  | 0, _ => none
  | fuel + 1, l =>
    match l.dropWhile isJsonWs with
    | [] => none
    | c :: rest =>
      if c = '"' then
        match parseJsonString (fuel + 1) rest with
        | some (s, rem) => some (.str s, rem)
        | none => none
      else if c = '[' then
        match (rest.dropWhile isJsonWs) with
        | ']' :: rem => some (.arr [], rem)
        | _ =>
          match parseJsonArrayItems fuel rest with
          | some (xs, rem) => some (.arr xs, rem)
          | none => none
      else if c = '{' then
        match (rest.dropWhile isJsonWs) with
        | '}' :: rem => some (.obj [], rem)
        | _ =>
          match parseJsonObjectItems fuel rest with
          | some (fs, rem) => some (.obj fs, rem)
          | none => none
      else if c = 't' then
        if startsWithChars "rue".data rest then some (.bool true, rest.drop 3) else none
      else if c = 'f' then
        if startsWithChars "alse".data rest then some (.bool false, rest.drop 4) else none
      else if c = 'n' then
        if startsWithChars "ull".data rest then some (.null, rest.drop 3) else none
      else if c = '-' then
        match parseDigits rest with
        | some (n, rem) => some (.num (-(n : Int)), rem)
        | none => none
      else
        match parseDigits (c :: rest) with
        | some (n, rem) => some (.num (n : Int), rem)
        | none => none

/-- Parse the items of a non-empty JSON array, consuming the closing `]`. -/
def parseJsonArrayItems : Nat → List Char → Option (List Json × List Char)
  | 0, _ => none
  | fuel + 1, l =>
    match parseJsonValue fuel l with
    | none => none
    | some (v, rem) =>
      match rem.dropWhile isJsonWs with
      | ',' :: rem2 =>
        match parseJsonArrayItems fuel rem2 with
        | some (xs, rem3) => some (v :: xs, rem3)
        | none => none
      | ']' :: rem2 => some ([v], rem2)
      | _ => none

/-- Parse the members of a non-empty JSON object, consuming the closing `}`. -/
def parseJsonObjectItems : Nat → List Char → Option (List (String × Json) × List Char)
  | 0, _ => none
  | fuel + 1, l =>
    match l.dropWhile isJsonWs with
    | '"' :: rest =>
      match parseJsonString (fuel + 1) rest with
      | none => none
      | some (k, rem) =>
        match rem.dropWhile isJsonWs with
        | ':' :: rem2 =>
          match parseJsonValue fuel rem2 with
          | none => none
          | some (v, rem3) =>
            match rem3.dropWhile isJsonWs with
            | ',' :: rem4 =>
              match parseJsonObjectItems fuel rem4 with
              | some (fs, rem5) => some ((k, v) :: fs, rem5)
              | none => none
            | '}' :: rem4 => some ([(k, v)], rem4)
            | _ => none
        | _ => none
    | _ => none

end

/-- Executable stand-in for `JSON.parse`: the whole input, less trailing
whitespace, must be consumed. -/
def jsonParse (s : String) : Option Json :=
  match parseJsonValue (s.length + 1) s.data with
  | some (v, rem) => if (rem.dropWhile isJsonWs).isEmpty then some v else none
  | none => none

/-! ## ReviewFetcher (`getPlaceReviews`, server.js lines 152-191)

Modelled from the point where a successful place-detail provider response is
in hand (the claims all assume a successful response; a non-2xx status throws
before any of this code runs). -/

/-- A raw review as delivered by the place-detail provider:
`review.text?.text`, `review.originalText?.text`, `review.rating`,
`review.publishTime`, each possibly missing. -/
structure RawReview where
  textText : Option String
  originalTextText : Option String
  rating : Option Nat
  publishTime : Option String
deriving Repr, DecidableEq

/-- The parsed body of a successful place-detail response
(`data.displayName?.text` flattened to an optional string, `data.reviews`
possibly absent). -/
structure PlaceDetails where
  displayName : Option String
  reviews : Option (List RawReview)
deriving Repr, DecidableEq

/-- The batch returned by `getPlaceReviews`. -/
structure ReviewBatch where
  name : Option String
  reviews : List Review
  totalFound : Nat
  totalAvailable : Nat
  limitApplied : Bool
deriving Repr, DecidableEq

/-- `getPlaceReviews` fails only with `NoReviewsError` once the provider
response is successful. -/
inductive FetchError where
  | noReviews : FetchError
deriving Repr, DecidableEq

/-- An optional string filtered through JS truthiness (`undefined` and `""`
are both falsy). -/
def optTruthy : Option String → Option String
  | some s => if s = "" then none else some s
  | none => none

/-- `review.text?.text || review.originalText?.text || ''` then the rest of
the per-review mapping. -/
def mapReview (r : RawReview) : Review :=
  { text := ((optTruthy r.textText).orElse (fun _ => optTruthy r.originalTextText)).getD ""
    rating := r.rating
    time := r.publishTime }

/-- `config.maxReviews` (server.js line 20). -/
def configMaxReviews : Nat := 50

/-- The substantial-review predicate: `review.text.length > 10`. -/
def isSubstantial (r : Review) : Bool :=
  decide (10 < r.text.length)

/-- `getPlaceReviews` after a successful provider response
(server.js lines 164-191): map, filter short reviews, truncate, and fail with
`NoReviewsError` when nothing substantial remains. -/
def getPlaceReviews (data : PlaceDetails) (maxReviews : Nat) :
    Except FetchError ReviewBatch :=
  let rawList := data.reviews.getD []
  let totalAvailableReviews := rawList.length
  let reviews := ((rawList.map mapReview).filter isSubstantial).take maxReviews
  if reviews.length = 0 then .error .noReviews
  else .ok
    { name := data.displayName
      reviews := reviews
      totalFound := reviews.length
      totalAvailable := totalAvailableReviews
      limitApplied := decide (maxReviews < totalAvailableReviews) }

/-! ## UrlResolver (`parseGoogleMapsUrl`, server.js lines 35-109)

The JavaScript built-ins `URL`, `URLSearchParams.get` and
`decodeURIComponent` are modelled for the ASCII subset exercised by this
program: percent-escapes are decoded to single characters when the byte is
below `0x80` (a multi-byte UTF-8 escape sequence makes the strict decoder
fail and the lenient one emit U+FFFD, which conservatively under-approximates
the built-ins outside the ASCII range), and the WHATWG percent-encoding of
unusual path characters is not replayed (inputs here are already encoded). -/

/-- Possible failures of `parseGoogleMapsUrl`, one per distinct thrown
message: `InvalidUrlError` (`"Please provide a valid URL"`),
`UnsupportedFormatError` for a non-Google host
(`"Please provide a valid Google Maps URL"`) or an unrecognized format
(`"Could not extract place name from this URL format"`), and a rethrown
`URIError` from `decodeURIComponent`. -/
inductive ResolveError where
  | invalidUrl : ResolveError
  | notMapsUrl : ResolveError
  | unsupportedFormat : ResolveError
  | uriMalformed : ResolveError
deriving Repr, DecidableEq

/-- Strict percent-decoding, modelling `decodeURIComponent` (ASCII scope):
a malformed escape or a non-ASCII byte yields `none` (a thrown `URIError`). -/
def pctDecode : List Char → Option (List Char)
  | [] => some []
  | c :: rest =>
    if c = '%' then
      match rest with
      | c1 :: c2 :: rest2 =>
        match hexDigitVal c1, hexDigitVal c2 with
        | some h1, some h2 =>
          if 16 * h1 + h2 < 128 then
            (pctDecode rest2).map (fun l => Char.ofNat (16 * h1 + h2) :: l)
          else none
        | _, _ => none
      | _ => none
    else (pctDecode rest).map (fun l => c :: l)

/-- The Unicode replacement character. -/
def replacementChar : Char := Char.ofNat 0xFFFD

/-- Lenient percent-decoding as used by `URLSearchParams`: malformed escapes
stay literal, non-ASCII bytes become U+FFFD (ASCII scope of the WHATWG
UTF-8-decode). -/
def pctDecodeLenient : List Char → List Char
  | [] => []
  | '%' :: c1 :: c2 :: rest2 =>
    match hexDigitVal c1, hexDigitVal c2 with
    | some h1, some h2 =>
      (if 16 * h1 + h2 < 128 then Char.ofNat (16 * h1 + h2)
       else replacementChar) :: pctDecodeLenient rest2
    | _, _ => '%' :: pctDecodeLenient (c1 :: c2 :: rest2)
  | c :: rest => c :: pctDecodeLenient rest

/-- `application/x-www-form-urlencoded` value decoding, as performed by the
`URL` object on `searchParams` entries: `+` becomes a space, then lenient
percent-decoding. -/
def formDecodeList (l : List Char) : List Char :=
  pctDecodeLenient (l.map (fun c => if c = '+' then ' ' else c))

/-- `decodeURIComponent` on strings. -/
def decodeURIComponentStr (s : String) : Option String :=
  (pctDecode s.data).map String.mk

/-- `decodeURIComponent(x).replace(/\+/g, ' ')` — the transformation the
resolver applies to an extracted text; a decode failure is the rethrown
`URIError`. -/
def decodePlusE (raw : String) : Except ResolveError String :=
  match decodeURIComponentStr raw with
  | none => .error .uriMalformed
  | some d => .ok (plusToSpace d)

/-- The transformation `parseGoogleMapsUrl` applies to a matched path
segment, as a function of the raw (encoded) segment text. -/
def pathSegmentTransform (raw : String) : Except ResolveError String :=
  decodePlusE raw

/-- The composite transformation a `q` value undergoes, as a function of the
raw (encoded) text in the query string: the `URL` object form-decodes it
before the resolver calls `decodeURIComponent` on it again. -/
def qValueTransform (raw : String) : Except ResolveError String :=
  decodePlusE (String.mk (formDecodeList raw.data))

/-- The parts of a parsed `URL` object the resolver reads. -/
structure UrlObj where
  hostname : String
  pathname : String
  search : String
deriving Repr, DecidableEq

/-- A C0 control character or space (stripped from both ends by the WHATWG
URL parser before anything else). -/
def isC0OrSpace (c : Char) : Bool :=
  c.toNat ≤ 32

/-- ASCII tab or newline (removed everywhere inside the input by the WHATWG
URL parser). -/
def isTabOrNewline (c : Char) : Bool :=
  c = '\t' || c = '\n' || c = '\r'

/-- First character of a URL scheme. -/
def isSchemeStart (c : Char) : Bool :=
  c.isAlpha

/-- Subsequent character of a URL scheme. -/
def isSchemeChar (c : Char) : Bool :=
  c.isAlpha || c.isDigit || c = '+' || c = '-' || c = '.'

/-- Drop a userinfo part: everything up to and including the last `@`. -/
def afterLastAt (l : List Char) : List Char :=
  (l.reverse.takeWhile (fun c => c ≠ '@')).reverse

/-- Boundary of the authority section for a special (http/https) URL. -/
def isAuthorityEnd (c : Char) : Bool :=
  c = '/' || c = '\\' || c = '?' || c = '#'

/-- Model of the WHATWG `new URL(input)` constructor (no base URL), for the
ASCII inputs in scope: strip C0/space from the ends and tab/newline
everywhere, read a scheme, then split `http`/`https` URLs into hostname
(lowercased, userinfo and port removed), pathname (backslashes normalized,
`/` when empty) and the raw query string.  A missing scheme or an empty
host of a special URL is a thrown `TypeError` (`none`).  Non-special schemes
parse with an empty hostname, which the resolver then rejects as a
non-Google host.  Percent-encoding normalization of exotic path bytes and
IDNA host mapping are outside the modelled (already-encoded ASCII) scope. -/
def parseURL (s : String) : Option UrlObj :=
  let l := (jsTrimList s.data).filter (fun c => !(isTabOrNewline c))
  let l := l.dropWhile isC0OrSpace
  let l := (l.reverse.dropWhile isC0OrSpace).reverse
  let pre := l.takeWhile isSchemeChar
  let rest := l.dropWhile isSchemeChar
  match pre, rest with
  | c :: _, ':' :: rest2 =>
    if !isSchemeStart c then none
    else
      let scheme := String.mk (pre.map Char.toLower)
      if scheme = "http" || scheme = "https" then
        let afterSlashes := rest2.dropWhile (fun c => c = '/' || c = '\\')
        let authority := afterSlashes.takeWhile (fun c => !isAuthorityEnd c)
        let afterAuth := afterSlashes.dropWhile (fun c => !isAuthorityEnd c)
        let host := (afterLastAt authority).takeWhile (fun c => c ≠ ':')
        if host.isEmpty then none
        else
          let pathRaw := afterAuth.takeWhile (fun c => c ≠ '?' && c ≠ '#')
          let afterPath := afterAuth.dropWhile (fun c => c ≠ '?' && c ≠ '#')
          let query :=
            match afterPath with
            | '?' :: qs => String.mk (qs.takeWhile (fun c => c ≠ '#'))
            | _ => ""
          some
            { hostname := String.mk (host.map Char.toLower)
              pathname :=
                if pathRaw.isEmpty then "/"
                else String.mk (pathRaw.map (fun c => if c = '\\' then '/' else c))
              search := query }
      else
        let pathRaw := rest2.takeWhile (fun c => c ≠ '?' && c ≠ '#')
        let afterPath := rest2.dropWhile (fun c => c ≠ '?' && c ≠ '#')
        let query :=
          match afterPath with
          | '?' :: qs => String.mk (qs.takeWhile (fun c => c ≠ '#'))
          | _ => ""
        some { hostname := "", pathname := String.mk pathRaw, search := query }
  | _, _ => none

/-- Split a character list on a separator character (the behavior of
JavaScript `str.split(sep)` for one-character separators). -/
def splitOnCharAux (c : Char) : List Char → List Char → List (List Char)
  | [], acc => [acc.reverse]
  | x :: xs, acc =>
    if x = c then acc.reverse :: splitOnCharAux c xs []
    else splitOnCharAux c xs (x :: acc)

/-- `str.split(c)`. -/
def splitOnChar (c : Char) (l : List Char) : List (List Char) :=
  splitOnCharAux c l []

/-- `urlObj.searchParams.get(name)`: split the raw query on `&`, split each
non-empty piece at its first `=`, form-decode names and values, return the
first value whose decoded name matches. -/
def searchGetAux : List (List Char) → String → Option String
  | [], _ => none
  | piece :: rest, name =>
    if piece.isEmpty then searchGetAux rest name
    else
      let k := piece.takeWhile (fun c => c ≠ '=')
      let v : List Char :=
        match piece.dropWhile (fun c => c ≠ '=') with
        | _ :: r => r
        | [] => []
      if formDecodeList k = name.data then some (String.mk (formDecodeList v))
      else searchGetAux rest name

/-- `urlObj.searchParams.get(name)` on the stored raw query string. -/
def searchParamGet (search : String) (name : String) : Option String :=
  searchGetAux (splitOnChar '&' search.data) name

/-- `urlObj.pathname.split('/').filter(Boolean)`. -/
def pathParts (u : UrlObj) : List String :=
  ((splitOnChar '/' u.pathname.data).map String.mk).filter (fun s => s ≠ "")

/-- Pattern 1 (server.js lines 57-62): `/maps/place/Place+Name` — the
segment after `place`, unless it starts with `@`. -/
def patternPlace (u : UrlObj) : Except ResolveError (Option String) :=
  let pp := pathParts u
  match pp.findIdx? (fun s => s = "place") with
  | some idx =>
    match pp.get? (idx + 1) with
    | some seg =>
      if startsWithChars "@".data seg.data then .ok none
      else (decodePlusE seg).map some
    | none => .ok none
  | none => .ok none

/-- Pattern 2 (server.js lines 64-69): `/maps/search/Place+Name`. -/
def patternSearch (u : UrlObj) : Except ResolveError (Option String) :=
  let pp := pathParts u
  match pp.findIdx? (fun s => s = "search") with
  | some idx =>
    match pp.get? (idx + 1) with
    | some seg => (decodePlusE seg).map some
    | none => .ok none
  | none => .ok none

/-- Pattern 3 (server.js lines 71-84): `maps.app.goo.gl` short links — the
`q` query parameter when truthy, else a fixed placeholder for a non-root
path. -/
def patternShortLink (u : UrlObj) : Except ResolveError (Option String) :=
  if strHasSub u.hostname "maps.app.goo.gl" then
    match searchParamGet u.search "q" with
    | some q =>
      if q = "" then
        if u.pathname ≠ "" ∧ u.pathname ≠ "/" then
          .ok (some "Location from Google Maps")
        else .ok none
      else (decodePlusE q).map some
    | none =>
      if u.pathname ≠ "" ∧ u.pathname ≠ "/" then
        .ok (some "Location from Google Maps")
      else .ok none
  else .ok none

/-- Pattern 4 (server.js lines 86-89): a truthy `q` query parameter on any
host. -/
def patternQuery (u : UrlObj) : Except ResolveError (Option String) :=
  match searchParamGet u.search "q" with
  | some q => if q = "" then .ok none else (decodePlusE q).map some
  | none => .ok none

/-- The ordered pattern list of server.js lines 55-90. -/
def urlPatterns : List (UrlObj → Except ResolveError (Option String)) :=
  [patternPlace, patternSearch, patternShortLink, patternQuery]

/-- The `for (const pattern of patterns)` loop: the first truthy (non-empty)
result is trimmed and returned; a thrown `URIError` escapes the loop. -/
def runPatterns : List (UrlObj → Except ResolveError (Option String)) →
    UrlObj → Except ResolveError (Option String)
  | [], _ => .ok none
  | p :: ps, u =>
    match p u with
    | .error e => .error e
    | .ok (some s) => if s = "" then runPatterns ps u else .ok (some (jsTrimStr s))
    | .ok none => runPatterns ps u

/-- The `@`-stripping preamble (server.js lines 38-41): trim, then remove
exactly one leading `@` if present (`startsWith(at)` + `substring(1)`). -/
def cleanList (l : List Char) : List Char :=
  let t := jsTrimList l
  if t.head? = some '@' then t.tail else t

/-- The resolver body after input cleanup (server.js lines 43-108). -/
def parseCleaned (cleanUrl : String) : Except ResolveError String :=
  match parseURL cleanUrl with
  | none => .error .invalidUrl
  | some u =>
    if strHasSub u.hostname "google.com" || strHasSub u.hostname "maps.google" ||
        strHasSub u.hostname "maps.app.goo.gl" then
      match runPatterns urlPatterns u with
      | .error e => .error e
      | .ok (some s) => .ok s
      | .ok none =>
        if strHasSub u.hostname "maps.app.goo.gl" then .ok "Google Maps Location"
        else .error .unsupportedFormat
    else .error .notMapsUrl

/-- `parseGoogleMapsUrl` (server.js lines 35-109): UrlResolver's `resolve`. -/
def parseGoogleMapsUrl (url : String) : Except ResolveError String :=
  parseCleaned (String.mk (cleanList url.data))

/-! ## Concrete sample data used by witnesses and counterexamples -/

/-- A single substantial sample review. -/
def rvSample : Review :=
  { text := "Nice place to visit", rating := some 5, time := none }

/-- Shorthand review constructor for the end-to-end scenario. -/
def mkRev (t : String) (n : Nat) : Review :=
  { text := t, rating := some n, time := none }

/-- The spec's end-to-end scenario: 25 reviews whose rating sequence starts
`5,5,5,4,5,1,5,4,5,5,...`, with 18 ratings ≥ 4, 3 ratings ≤ 2 and four 3s
(total rating 101, average 4.04). -/
def revs25 : List Review :=
  [mkRev "Wonderful staff and quick service" 5, mkRev "Really enjoyed the meal" 5,
   mkRev "Fantastic atmosphere" 5, mkRev "Solid food and service" 4,
   mkRev "Everything was spot on" 5, mkRev "Very slow and the order was wrong" 1,
   mkRev "Could not have asked for more" 5, mkRev "Nice portions and fair prices" 4,
   mkRev "A lovely evening out" 5, mkRev "Will come back again" 5,
   mkRev "Top notch kitchen" 5, mkRev "Charming place" 5,
   mkRev "Happy with the visit" 4, mkRev "Everything arrived fresh" 5,
   mkRev "Staff remembered our order" 5, mkRev "Quick seating on a weekend" 5,
   mkRev "Kids menu was a nice touch" 4, mkRev "Warm bread on arrival" 5,
   mkRev "Clean tables and washrooms" 5, mkRev "They forgot my drink twice" 1,
   mkRev "Cold plates and a rude waiter" 1, mkRev "It was fine overall" 3,
   mkRev "Average visit nothing special" 3, mkRev "An ordinary lunch stop" 3,
   mkRev "Regular spot for the office" 3]

/-- A provider response whose JSON object carries a sentiment outside the
documented three-value set. -/
def neutralResponse : String :=
  "\x7b\"overallSentiment\": \"neutral\"\x7d"

/-- A provider response with one well-formed list field and one malformed
(non-array) list field. -/
def mixedFieldsResponse : String :=
  "\x7b\"keyInsights\": [\"a\"], \"topicSummaries\": 5\x7d"

/-- The parsed value of `mixedFieldsResponse`. -/
def mixedFieldsJson : Json :=
  Json.obj [("keyInsights", Json.arr [Json.str "a"]), ("topicSummaries", Json.num 5)]

/-- The six list-typed fields of an `AnalysisResult`, paired with their JSON
field names (used to state the field-repair claim once for all six). -/
def listFields : List (String × (AnalysisResult → List Json)) :=
  [("topicSummaries", fun a => a.topicSummaries),
   ("keyInsights", fun a => a.keyInsights),
   ("commonPhrases", fun a => a.commonPhrases),
   ("customerPainPoints", fun a => a.customerPainPoints),
   ("positiveHighlights", fun a => a.positiveHighlights),
   ("recommendations", fun a => a.recommendations)]

/-! ## Supporting lemmas -/

/-- `arrOrEmpty` keeps a field precisely when it is an actual array and
substitutes the empty list otherwise. -/
lemma arrOrEmpty_spec (o : Option Json) :
    (∃ xs, o = some (Json.arr xs) ∧ arrOrEmpty o = xs) ∨
      ((∀ xs, o ≠ some (Json.arr xs)) ∧ arrOrEmpty o = []) := by
  match o with
  | none => exact Or.inr ⟨fun xs h => Option.noConfusion h, rfl⟩
  | some Json.null => exact Or.inr ⟨fun xs h => by simp at h, rfl⟩
  | some (Json.bool b) => exact Or.inr ⟨fun xs h => by simp at h, rfl⟩
  | some (Json.num q) => exact Or.inr ⟨fun xs h => by simp at h, rfl⟩
  | some (Json.str s) => exact Or.inr ⟨fun xs h => by simp at h, rfl⟩
  | some (Json.arr xs) => exact Or.inl ⟨xs, rfl, rfl⟩
  | some (Json.obj fs) => exact Or.inr ⟨fun xs h => by simp at h, rfl⟩

/-! ## Theorems for the claims -/

/-- **C1.** For every place name and non-empty review list, `analyzeReviews`
is total (it always returns a structurally valid `AnalysisResult` and never
propagates an error), and on every failing primary path — a thrown provider
call, a brace-less response, or an unparseable extracted candidate — it
returns exactly `generateFallbackAnalysis placeName reviews`. -/
theorem analyze_absorbs_primary_failures (parse : String → Option Json)
    (placeName : String) (reviews : List Review) (_hne : reviews ≠ [])
    (outcome : ProviderOutcome) (hfail : primaryFails parse outcome = true) :
    analyzeReviews parse placeName reviews outcome =
      generateFallbackAnalysis placeName reviews := by
  cases outcome with
  | throws => rfl
  | responds text =>
    have hfail' : (match extractJsonCandidate (stripFences (jsTrimStr text)) with
        | none => true
        | some jsonStr => (parse jsonStr).isNone) = true := hfail
    show (match extractJsonCandidate (stripFences (jsTrimStr text)) with
      | none => generateFallbackAnalysis placeName reviews
      | some jsonStr =>
        match parse jsonStr with
        | none => generateFallbackAnalysis placeName reviews
        | some analysis => validateAnalysis analysis) =
      generateFallbackAnalysis placeName reviews
    cases hex : extractJsonCandidate (stripFences (jsTrimStr text)) with
    | none => rfl
    | some jsonStr =>
      rw [hex] at hfail'
      have hnone : (parse jsonStr).isNone = true := hfail'
      show (match parse jsonStr with
        | none => generateFallbackAnalysis placeName reviews
        | some analysis => validateAnalysis analysis) =
        generateFallbackAnalysis placeName reviews
      cases hp : parse jsonStr with
      | none => rfl
      | some j => rw [hp] at hnone; simp [Option.isNone] at hnone

/-- **C1 witness.** A brace-less provider response for a concrete non-empty
review list yields exactly the fallback value. -/
theorem analyze_absorbs_primary_failures_witness :
    ([rvSample] : List Review) ≠ [] ∧
      primaryFails jsonParse (ProviderOutcome.responds "The model could not produce structured output.") = true ∧
      analyzeReviews jsonParse "Cafe" [rvSample]
          (ProviderOutcome.responds "The model could not produce structured output.") =
        generateFallbackAnalysis "Cafe" [rvSample] :=
  ⟨by decide, by decide,
    analyze_absorbs_primary_failures jsonParse "Cafe" [rvSample] (by decide)
      (ProviderOutcome.responds "The model could not produce structured output.") (by decide)⟩

/-- **C2.** On every successfully parsed primary-path JSON value, the engine
returns the validated result; each of the six list-typed fields is kept only
if the parsed value is actually a list (empty list otherwise, so no
list-typed field is ever null/undefined — they have list type by
construction), and `overallSentiment` defaults to `"mixed"` when absent. -/
theorem analyze_validates_parsed (parse : String → Option Json)
    (placeName : String) (reviews : List Review) (text jsonStr : String)
    (j : Json)
    (hex : extractJsonCandidate (stripFences (jsTrimStr text)) = some jsonStr)
    (hp : parse jsonStr = some j) :
    analyzeReviews parse placeName reviews (ProviderOutcome.responds text) =
        validateAnalysis j ∧
      (∀ nm proj, (nm, proj) ∈ listFields →
        ((∃ xs, j.getField nm = some (Json.arr xs) ∧
            proj (validateAnalysis j) = xs) ∨
         ((∀ xs, j.getField nm ≠ some (Json.arr xs)) ∧
            proj (validateAnalysis j) = []))) ∧
      (j.getField "overallSentiment" = none →
        (validateAnalysis j).overallSentiment = Json.str "mixed") := by
  refine ⟨?_, ?_, ?_⟩
  · show (match extractJsonCandidate (stripFences (jsTrimStr text)) with
      | none => generateFallbackAnalysis placeName reviews
      | some jsonStr =>
        match parse jsonStr with
        | none => generateFallbackAnalysis placeName reviews
        | some analysis => validateAnalysis analysis) = validateAnalysis j
    rw [hex]
    show (match parse jsonStr with
      | none => generateFallbackAnalysis placeName reviews
      | some analysis => validateAnalysis analysis) = validateAnalysis j
    rw [hp]
  · intro nm proj hmem
    fin_cases hmem <;> exact arrOrEmpty_spec _
  · intro habs
    show (match j.getField "overallSentiment" with
      | some v => if v.truthy then v else Json.str "mixed"
      | none => Json.str "mixed") = Json.str "mixed"
    rw [habs]

/-- **C2 witness.** A concrete parsed object with one genuine array field and
one malformed (numeric) field: the array survives, the malformed field is
repaired to the empty list. -/
theorem analyze_validates_parsed_witness :
    extractJsonCandidate (stripFences (jsTrimStr mixedFieldsResponse)) =
        some mixedFieldsResponse ∧
      jsonParse mixedFieldsResponse = some mixedFieldsJson ∧
      analyzeReviews jsonParse "Cafe" [rvSample]
          (ProviderOutcome.responds mixedFieldsResponse) =
        validateAnalysis mixedFieldsJson ∧
      (validateAnalysis mixedFieldsJson).keyInsights = [Json.str "a"] ∧
      (validateAnalysis mixedFieldsJson).topicSummaries = [] :=
  ⟨rfl, rfl,
    (analyze_validates_parsed jsonParse "Cafe" [rvSample] mixedFieldsResponse
      mixedFieldsResponse mixedFieldsJson rfl rfl).1, rfl, rfl⟩

/-- **C5 counterexample.** The primary-path validator only substitutes
`"mixed"` for a falsy `overallSentiment`; a truthy non-enumerated provider
value passes through unchanged.  A real run (concrete JSON parser, concrete
response text) returns `overallSentiment = "neutral"`, which is none of the
three documented strings, so the claim is false as stated. -/
theorem sentiment_enum_counterexample :
    (analyzeReviews jsonParse "Cafe" [rvSample]
        (ProviderOutcome.responds neutralResponse)).overallSentiment =
      Json.str "neutral" ∧
    (some "neutral" : Option String) ≠ some "positive" ∧
    (some "neutral" : Option String) ≠ some "negative" ∧
    (some "neutral" : Option String) ≠ some "mixed" :=
  ⟨rfl, by decide, by decide, by decide⟩

/-- **C5 amended.** Every `AnalysisResult` produced by the fallback path has
`overallSentiment` equal to one of `"positive"`, `"negative"`, `"mixed"`;
on the primary path this is guaranteed only when the parsed value's
`overallSentiment` is absent or falsy (then it becomes `"mixed"`) — a truthy
provider value is passed through unvalidated. -/
theorem fallback_sentiment_enum (placeName : String) (reviews : List Review) :
    (generateFallbackAnalysis placeName reviews).overallSentiment =
        Json.str "positive" ∨
      (generateFallbackAnalysis placeName reviews).overallSentiment =
        Json.str "negative" ∨
      (generateFallbackAnalysis placeName reviews).overallSentiment =
        Json.str "mixed" := by
  show Json.str (fallbackSentiment reviews) = Json.str "positive" ∨
    Json.str (fallbackSentiment reviews) = Json.str "negative" ∨
    Json.str (fallbackSentiment reviews) = Json.str "mixed"
  unfold fallbackSentiment
  split_ifs <;> simp

/-- **C6.** The fallback sentiment rule: `"positive"` when the count of
ratings ≥ 4 exceeds twice the count of ratings ≤ 2, `"negative"` in the
symmetric case, `"mixed"` otherwise (a missing rating counts as 0); and the
spec's end-to-end scenario — 25 reviews, 18 ratings ≥ 4, 3 ratings ≤ 2,
AI call forced to fail — yields `"positive"` with `keyInsights[0]` carrying
the one-decimal average `4.0`. -/
theorem fallback_sentiment_formula :
    (∀ (placeName : String) (reviews : List Review), reviews ≠ [] →
      (generateFallbackAnalysis placeName reviews).overallSentiment =
        Json.str
          (if (reviews.filter (fun r => 4 ≤ r.rating.getD 0)).length >
              2 * (reviews.filter (fun r => r.rating.getD 0 ≤ 2)).length then
            "positive"
          else if (reviews.filter (fun r => r.rating.getD 0 ≤ 2)).length >
              2 * (reviews.filter (fun r => 4 ≤ r.rating.getD 0)).length then
            "negative"
          else "mixed")) ∧
    (analyzeReviews jsonParse "Test Place" revs25 ProviderOutcome.throws).overallSentiment =
      Json.str "positive" ∧
    (analyzeReviews jsonParse "Test Place" revs25 ProviderOutcome.throws).keyInsights.head? =
      some (Json.str "Average rating: 4.0/5 stars") := by
  refine ⟨?_, rfl, rfl⟩
  intro placeName reviews _
  show Json.str (fallbackSentiment reviews) = _
  unfold fallbackSentiment fallbackPositiveCount fallbackNegativeCount
  rw [Nat.mul_comm 2 ((reviews.filter (fun r => r.rating.getD 0 ≤ 2)).length),
    Nat.mul_comm 2 ((reviews.filter (fun r => 4 ≤ r.rating.getD 0)).length)]

/-- **C6 witness.** The sentiment formula instantiated at a concrete
non-empty list. -/
theorem fallback_sentiment_formula_witness :
    ([rvSample] : List Review) ≠ [] ∧
      (generateFallbackAnalysis "Cafe" [rvSample]).overallSentiment =
        Json.str
          (if (([rvSample] : List Review).filter (fun r => 4 ≤ r.rating.getD 0)).length >
              2 * (([rvSample] : List Review).filter (fun r => r.rating.getD 0 ≤ 2)).length then
            "positive"
          else if (([rvSample] : List Review).filter (fun r => r.rating.getD 0 ≤ 2)).length >
              2 * (([rvSample] : List Review).filter (fun r => 4 ≤ r.rating.getD 0)).length then
            "negative"
          else "mixed") :=
  ⟨by decide, fallback_sentiment_formula.1 "Cafe" [rvSample] (by decide)⟩

/-- **C10.** For every non-empty review list, the fallback result has the
fixed shapes: `topicSummaries` exactly 1 entry, `keyInsights` exactly 3,
`recommendations` exactly 2, `positiveHighlights` exactly 1,
`commonPhrases` between 1 and 5, `customerPainPoints` between 1 and 3
(placeholders substituted when no keyword matches). -/
theorem fallback_shape (placeName : String) (reviews : List Review)
    (_hne : reviews ≠ []) :
    (generateFallbackAnalysis placeName reviews).topicSummaries.length = 1 ∧
    (generateFallbackAnalysis placeName reviews).keyInsights.length = 3 ∧
    (generateFallbackAnalysis placeName reviews).recommendations.length = 2 ∧
    (generateFallbackAnalysis placeName reviews).positiveHighlights.length = 1 ∧
    (1 ≤ (generateFallbackAnalysis placeName reviews).commonPhrases.length ∧
      (generateFallbackAnalysis placeName reviews).commonPhrases.length ≤ 5) ∧
    (1 ≤ (generateFallbackAnalysis placeName reviews).customerPainPoints.length ∧
      (generateFallbackAnalysis placeName reviews).customerPainPoints.length ≤ 3) := by
  refine ⟨rfl, rfl, rfl, ?_, ?_, ?_⟩
  · show (if (foundPositiveWords reviews).length > 0 then
        [Json.str ("Customers frequently mention: " ++
          String.intercalate ", " (foundPositiveWords reviews))]
      else [Json.str "Generally positive customer feedback"]).length = 1
    split_ifs <;> rfl
  · show 1 ≤ (if (foundPositiveWords reviews).length > 0 then
        ((foundPositiveWords reviews).take 5).map Json.str
      else [Json.str "N/A"]).length ∧
      (if (foundPositiveWords reviews).length > 0 then
        ((foundPositiveWords reviews).take 5).map Json.str
      else [Json.str "N/A"]).length ≤ 5
    split_ifs with hfp
    · simp only [List.length_map, List.length_take]
      omega
    · simp
  · show 1 ≤ (if (foundNegativeWords reviews).length > 0 then
        ((foundNegativeWords reviews).take 3).map Json.str
      else [Json.str "No major pain points identified"]).length ∧
      (if (foundNegativeWords reviews).length > 0 then
        ((foundNegativeWords reviews).take 3).map Json.str
      else [Json.str "No major pain points identified"]).length ≤ 3
    split_ifs with hfn
    · simp only [List.length_map, List.length_take]
      omega
    · simp

/-- **C10 witness.** The shape invariants at a concrete non-empty review
list. -/
theorem fallback_shape_witness :
    ([rvSample] : List Review) ≠ [] ∧
      (generateFallbackAnalysis "Cafe" [rvSample]).topicSummaries.length = 1 ∧
      (generateFallbackAnalysis "Cafe" [rvSample]).keyInsights.length = 3 ∧
      (generateFallbackAnalysis "Cafe" [rvSample]).recommendations.length = 2 ∧
      (generateFallbackAnalysis "Cafe" [rvSample]).positiveHighlights.length = 1 ∧
      (1 ≤ (generateFallbackAnalysis "Cafe" [rvSample]).commonPhrases.length ∧
        (generateFallbackAnalysis "Cafe" [rvSample]).commonPhrases.length ≤ 5) ∧
      (1 ≤ (generateFallbackAnalysis "Cafe" [rvSample]).customerPainPoints.length ∧
        (generateFallbackAnalysis "Cafe" [rvSample]).customerPainPoints.length ≤ 3) :=
  ⟨by decide, fallback_shape "Cafe" [rvSample] (by decide)⟩

/-- **C3.** Every `ReviewBatch` produced by `getPlaceReviews` satisfies:
`totalAvailable` is the raw pre-filter review count, the output list has
length `min (number of substantial mapped reviews) maxReviews` and is a
sublist (provider order preserved) of the mapped raw list, `totalFound`
equals the output length, and `limitApplied` holds iff
`totalAvailable > maxReviews`. -/
theorem fetch_batch_invariants (data : PlaceDetails) (maxReviews : Nat)
    (batch : ReviewBatch)
    (h : getPlaceReviews data maxReviews = Except.ok batch) :
    batch.totalAvailable = (data.reviews.getD []).length ∧
    batch.reviews.length =
      min (((data.reviews.getD []).map mapReview).filter isSubstantial).length
        maxReviews ∧
    batch.totalFound = batch.reviews.length ∧
    (batch.limitApplied = true ↔ maxReviews < batch.totalAvailable) ∧
    batch.reviews.Sublist ((data.reviews.getD []).map mapReview) := by
  have h' : (if ((((data.reviews.getD []).map mapReview).filter
        isSubstantial).take maxReviews).length = 0 then
      (Except.error FetchError.noReviews : Except FetchError ReviewBatch)
    else Except.ok
      { name := data.displayName
        reviews := (((data.reviews.getD []).map mapReview).filter
          isSubstantial).take maxReviews
        totalFound := ((((data.reviews.getD []).map mapReview).filter
          isSubstantial).take maxReviews).length
        totalAvailable := (data.reviews.getD []).length
        limitApplied := decide (maxReviews < (data.reviews.getD []).length) }) =
      Except.ok batch := h
  by_cases hz : ((((data.reviews.getD []).map mapReview).filter
      isSubstantial).take maxReviews).length = 0
  · rw [if_pos hz] at h'
    exact absurd h' (by simp)
  · rw [if_neg hz] at h'
    have hb := Except.ok.inj h'
    subst hb
    refine ⟨rfl, ?_, rfl, ?_, ?_⟩
    · rw [List.length_take, Nat.min_comm]
    · simp
    · exact (List.take_sublist _ _).trans (List.filter_sublist _)

/-- A concrete successful place-detail response: three raw reviews, one of
them non-substantial. -/
def sampleDetails : PlaceDetails :=
  { displayName := some "Cafe"
    reviews := some
      [{ textText := some "A really lovely corner cafe", originalTextText := none,
         rating := some 5, publishTime := none },
       { textText := some "ok", originalTextText := none,
         rating := some 3, publishTime := none },
       { textText := some "Great pastries and fast service", originalTextText := none,
         rating := some 4, publishTime := none }] }

/-- The batch `getPlaceReviews sampleDetails 1` produces. -/
def sampleBatch : ReviewBatch :=
  { name := some "Cafe"
    reviews := [{ text := "A really lovely corner cafe", rating := some 5, time := none }]
    totalFound := 1
    totalAvailable := 3
    limitApplied := true }

/-- **C3 witness.** A concrete successful fetch: three raw reviews, one
non-substantial, capped at `maxReviews = 1`. -/
theorem fetch_batch_invariants_witness :
    getPlaceReviews sampleDetails 1 = Except.ok sampleBatch ∧
      sampleBatch.totalAvailable = (sampleDetails.reviews.getD []).length ∧
      sampleBatch.reviews.length =
        min (((sampleDetails.reviews.getD []).map mapReview).filter
          isSubstantial).length 1 ∧
      (sampleBatch.limitApplied = true ↔ 1 < sampleBatch.totalAvailable) :=
  ⟨rfl, (fetch_batch_invariants sampleDetails 1 sampleBatch rfl).1,
    (fetch_batch_invariants sampleDetails 1 sampleBatch rfl).2.1,
    (fetch_batch_invariants sampleDetails 1 sampleBatch rfl).2.2.2.1⟩

/-- **C7.** Given a successful place-detail provider response,
`getPlaceReviews` (at the configured cap of 50) fails with `NoReviewsError`
exactly when no mapped review has text longer than 10 characters; an error
result carries no `ReviewBatch` by construction of `Except`. -/
theorem fetch_noreviews_iff (data : PlaceDetails) :
    getPlaceReviews data configMaxReviews = Except.error FetchError.noReviews ↔
      ∀ r ∈ (data.reviews.getD []).map mapReview, ¬(10 < r.text.length) := by
  have hstep : getPlaceReviews data configMaxReviews =
      (if ((((data.reviews.getD []).map mapReview).filter
          isSubstantial).take configMaxReviews).length = 0 then
        (Except.error FetchError.noReviews : Except FetchError ReviewBatch)
      else Except.ok
        { name := data.displayName
          reviews := (((data.reviews.getD []).map mapReview).filter
            isSubstantial).take configMaxReviews
          totalFound := ((((data.reviews.getD []).map mapReview).filter
            isSubstantial).take configMaxReviews).length
          totalAvailable := (data.reviews.getD []).length
          limitApplied :=
            decide (configMaxReviews < (data.reviews.getD []).length) }) := rfl
  rw [hstep]
  split_ifs with hz
  · simp only [true_iff]
    rw [List.length_eq_zero, List.take_eq_nil_iff] at hz
    rcases hz with hz | hz
    · exact absurd hz (by decide)
    · intro r hr
      have := List.filter_eq_nil_iff.mp hz r hr
      simpa [isSubstantial] using this
  · constructor
    · intro hcontra
      exact absurd hcontra (by simp)
    · intro hall
      exfalso
      apply hz
      have hfil : ((data.reviews.getD []).map mapReview).filter isSubstantial = [] := by
        apply List.filter_eq_nil_iff.mpr
        intro r hr
        simpa [isSubstantial] using hall r hr
      rw [hfil]
      rfl

/-- **C8.** The fallback analyzer's total rating (hence average) and
sentiment label are functions of the rating sequence alone: two review lists
with element-wise equal rating sequences but arbitrary texts produce the
same total, same length, same formatted average and the same sentiment. -/
theorem fallback_rating_only (r1 r2 : List Review)
    (h : r1.map (fun r => r.rating) = r2.map (fun r => r.rating)) :
    fallbackTotalRating r1 = fallbackTotalRating r2 ∧
    r1.length = r2.length ∧
    toFixed1Nat (fallbackTotalRating r1) r1.length =
      toFixed1Nat (fallbackTotalRating r2) r2.length ∧
    fallbackSentiment r1 = fallbackSentiment r2 ∧
    ∀ placeName : String,
      (generateFallbackAnalysis placeName r1).overallSentiment =
        (generateFallbackAnalysis placeName r2).overallSentiment := by
  have hlen : r1.length = r2.length := by
    have := congrArg List.length h
    simpa using this
  have htot : fallbackTotalRating r1 = fallbackTotalRating r2 := by
    have h1 : fallbackTotalRating r1 =
        (r1.map (fun r => r.rating)).foldl (fun s o => s + o.getD 0) 0 := by
      rw [List.foldl_map]
      rfl
    have h2 : fallbackTotalRating r2 =
        (r2.map (fun r => r.rating)).foldl (fun s o => s + o.getD 0) 0 := by
      rw [List.foldl_map]
      rfl
    rw [h1, h2, h]
  have hpos : fallbackPositiveCount r1 = fallbackPositiveCount r2 := by
    have h1 : fallbackPositiveCount r1 =
        (r1.map (fun r => r.rating)).countP (fun o => decide (4 ≤ o.getD 0)) := by
      rw [List.countP_map]
      rw [fallbackPositiveCount, ← List.countP_eq_length_filter]
      rfl
    have h2 : fallbackPositiveCount r2 =
        (r2.map (fun r => r.rating)).countP (fun o => decide (4 ≤ o.getD 0)) := by
      rw [List.countP_map]
      rw [fallbackPositiveCount, ← List.countP_eq_length_filter]
      rfl
    rw [h1, h2, h]
  have hneg : fallbackNegativeCount r1 = fallbackNegativeCount r2 := by
    have h1 : fallbackNegativeCount r1 =
        (r1.map (fun r => r.rating)).countP (fun o => decide (o.getD 0 ≤ 2)) := by
      rw [List.countP_map]
      rw [fallbackNegativeCount, ← List.countP_eq_length_filter]
      rfl
    have h2 : fallbackNegativeCount r2 =
        (r2.map (fun r => r.rating)).countP (fun o => decide (o.getD 0 ≤ 2)) := by
      rw [List.countP_map]
      rw [fallbackNegativeCount, ← List.countP_eq_length_filter]
      rfl
    rw [h1, h2, h]
  have hsent : fallbackSentiment r1 = fallbackSentiment r2 := by
    unfold fallbackSentiment
    rw [hpos, hneg]
  refine ⟨htot, hlen, by rw [htot, hlen], hsent, ?_⟩
  intro placeName
  show Json.str (fallbackSentiment r1) = Json.str (fallbackSentiment r2)
  rw [hsent]

/-- **C8 witness.** Two one-element lists with the same rating and different
texts get the same sentiment and formatted average. -/
theorem fallback_rating_only_witness :
    ([rvSample] : List Review).map (fun r => r.rating) =
        ([mkRev "Completely different words here" 5] : List Review).map
          (fun r => r.rating) ∧
      fallbackSentiment [rvSample] =
        fallbackSentiment [mkRev "Completely different words here" 5] ∧
      toFixed1Nat (fallbackTotalRating [rvSample]) ([rvSample] : List Review).length =
        toFixed1Nat (fallbackTotalRating [mkRev "Completely different words here" 5])
          ([mkRev "Completely different words here" 5] : List Review).length :=
  ⟨by decide,
    (fallback_rating_only [rvSample] [mkRev "Completely different words here" 5]
      (by decide)).2.2.2.1,
    (fallback_rating_only [rvSample] [mkRev "Completely different words here" 5]
      (by decide)).2.2.1⟩

/-! ## Lemmas about the decoders (for the URL claims) -/

/-- Strict percent-decoding is the identity on percent-free text. -/
lemma pctDecode_no_pct : ∀ l : List Char, (∀ c ∈ l, c ≠ '%') →
    pctDecode l = some l
  | [], _ => rfl
  | c :: rest, h => by
    have hc : c ≠ '%' := h c (List.mem_cons_self _ _)
    have ih := pctDecode_no_pct rest (fun x hx => h x (List.mem_cons_of_mem _ hx))
    rw [pctDecode.eq_def]
    show (if c = '%' then _ else (pctDecode rest).map (fun l => c :: l)) = some (c :: rest)
    rw [if_neg hc, ih]
    rfl

/-- Lenient percent-decoding is the identity on percent-free text. -/
lemma pctDecodeLenient_no_pct (l : List Char) (h : ∀ c ∈ l, c ≠ '%') :
    pctDecodeLenient l = l := by
  induction l using pctDecodeLenient.induct with
  | case1 => rfl
  | case2 c1 c2 rest2 i j hj hi ih =>
    exact absurd rfl (h '%' (List.mem_cons_self _ _))
  | case3 c1 c2 rest2 hno ih =>
    exact absurd rfl (h '%' (List.mem_cons_self _ _))
  | case4 c rest hcon ih =>
    rw [pctDecodeLenient.eq_3 c rest hcon,
      ih (fun x hx => h x (List.mem_cons_of_mem _ hx))]

/-- The plus-to-space substitution character map. -/
def plusChar (c : Char) : Char :=
  if c = '+' then ' ' else c

/-- `plusChar` never produces a percent sign from percent-free input. -/
lemma plusChar_no_pct (c : Char) (h : c ≠ '%') : plusChar c ≠ '%' := by
  unfold plusChar
  split_ifs <;> simp_all

/-- `plusChar` is idempotent. -/
lemma plusChar_idem (c : Char) : plusChar (plusChar c) = plusChar c := by
  unfold plusChar
  split_ifs <;> simp_all

/-- `plusToSpace` is `plusChar` mapped over the characters. -/
lemma plusToSpace_data (s : String) : (plusToSpace s).data = s.data.map plusChar := rfl

/-- `plusToSpace` is idempotent. -/
lemma plusToSpace_idem (s : String) : plusToSpace (plusToSpace s) = plusToSpace s := by
  show String.mk ((s.data.map plusChar).map plusChar) = String.mk (s.data.map plusChar)
  rw [List.map_map]
  congr 1
  exact List.map_congr_left (fun c _ => plusChar_idem c)

/-! ## Theorems for the URL claims -/

/-- **C4 counterexample.** The transformation applied to a raw path segment
and the one applied to a raw `q` value are *not* the same function of the raw
encoded text: `searchParams.get` already form-decodes the `q` value before
the resolver calls `decodeURIComponent` on it again, so the doubly-encoded
text `a%2520b` resolves to `a%20b` via the path but to `a b` via `q`. -/
theorem url_decode_uniformity_counterexample :
    parseGoogleMapsUrl "https://maps.google.com/maps/place/a%2520b" =
      Except.ok "a%20b" ∧
    parseGoogleMapsUrl "https://maps.google.com/?q=a%2520b" = Except.ok "a b" ∧
    pathSegmentTransform "a%2520b" = Except.ok "a%20b" ∧
    qValueTransform "a%2520b" = Except.ok "a b" ∧
    pathSegmentTransform "a%2520b" ≠ qValueTransform "a%2520b" := by
  refine ⟨rfl, rfl, rfl, rfl, ?_⟩
  intro hcontra
  rw [show pathSegmentTransform "a%2520b" = Except.ok "a%20b" from rfl,
    show qValueTransform "a%2520b" = Except.ok "a b" from rfl] at hcontra
  exact absurd (Except.ok.inj hcontra) (by decide)

/-- **C4 amended.** Both extraction transformations apply percent-decoding
and then replace `+` by a space, and they agree — both produce
`plusToSpace raw` — whenever the raw text contains no `%`; on
percent-containing (in particular doubly-encoded) raw text they differ
because the `q` value is form-decoded by the URL object first. -/
theorem transforms_agree_without_pct (raw : String)
    (h : ∀ c ∈ raw.data, c ≠ '%') :
    pathSegmentTransform raw = Except.ok (plusToSpace raw) ∧
      qValueTransform raw = Except.ok (plusToSpace raw) := by
  have hmap : ∀ c ∈ raw.data.map plusChar, c ≠ '%' := by
    intro c hc
    rcases List.mem_map.mp hc with ⟨a, ha, rfl⟩
    exact plusChar_no_pct a (h a ha)
  constructor
  · show decodePlusE raw = Except.ok (plusToSpace raw)
    unfold decodePlusE decodeURIComponentStr
    rw [pctDecode_no_pct raw.data h]
    rfl
  · show decodePlusE (String.mk (formDecodeList raw.data)) =
      Except.ok (plusToSpace raw)
    unfold formDecodeList
    rw [show raw.data.map (fun c => if c = '+' then ' ' else c) =
        raw.data.map plusChar from rfl,
      pctDecodeLenient_no_pct _ hmap]
    show decodePlusE (plusToSpace raw) = Except.ok (plusToSpace raw)
    unfold decodePlusE decodeURIComponentStr
    rw [show (plusToSpace raw).data = raw.data.map plusChar from rfl,
      pctDecode_no_pct _ hmap]
    show Except.ok (plusToSpace (plusToSpace raw)) = Except.ok (plusToSpace raw)
    rw [plusToSpace_idem]

/-- **C4 amended witness.** Agreement at the percent-free raw text `a+b`. -/
theorem transforms_agree_without_pct_witness :
    (∀ c ∈ ("a+b" : String).data, c ≠ '%') ∧
      pathSegmentTransform "a+b" = Except.ok (plusToSpace "a+b") ∧
      qValueTransform "a+b" = Except.ok (plusToSpace "a+b") :=
  ⟨by decide, (transforms_agree_without_pct "a+b" (by decide)).1,
    (transforms_agree_without_pct "a+b" (by decide)).2⟩

/-- A `dropWhile` that keeps the whole list is the identity on it. -/
lemma dropWhile_of_length_eq {p : Char → Bool} :
    ∀ l : List Char, (l.dropWhile p).length = l.length → l.dropWhile p = l
  | [], _ => rfl
  | c :: t, h => by
    by_cases hc : p c
    · rw [List.dropWhile_cons_of_pos hc] at h
      have hle : (t.dropWhile p).length ≤ t.length := (List.dropWhile_sublist p).length_le
      simp only [List.length_cons] at h
      omega
    · rw [List.dropWhile_cons_of_neg hc]

/-- A list fixed by `jsTrimList` is fixed by each of its two `dropWhile`
passes. -/
lemma trim_fixpoint_parts (l : List Char) (h : jsTrimList l = l) :
    l.dropWhile isJsWs = l ∧ l.reverse.dropWhile isJsWs = l.reverse := by
  unfold jsTrimList at h
  have hlen : (((l.dropWhile isJsWs).reverse.dropWhile isJsWs).reverse).length = l.length := by
    rw [h]
  have hlen2 : ((l.dropWhile isJsWs).reverse.dropWhile isJsWs).length = l.length := by
    simpa using hlen
  have hle1 : (l.dropWhile isJsWs).length ≤ l.length :=
    (List.dropWhile_sublist isJsWs).length_le
  have hle2 : ((l.dropWhile isJsWs).reverse.dropWhile isJsWs).length ≤
      (l.dropWhile isJsWs).reverse.length :=
    (List.dropWhile_sublist isJsWs).length_le
  have hlen_a : (l.dropWhile isJsWs).length = l.length := by
    simp only [List.length_reverse] at hle2
    omega
  have ha : l.dropWhile isJsWs = l := dropWhile_of_length_eq l hlen_a
  refine ⟨ha, ?_⟩
  rw [ha] at h
  have : l.reverse.dropWhile isJsWs = (l.reverse.dropWhile isJsWs).reverse.reverse := by
    rw [List.reverse_reverse]
  rw [this, h]

/-- A head that fails the predicate freezes `dropWhile`. -/
lemma dropWhile_fixed_head {p : Char → Bool} (l : List Char)
    (h : l.dropWhile p = l) : ∀ x ∈ l.head?, ¬p x := by
  intro x hx
  cases l with
  | nil => cases hx
  | cons c t =>
    have hcx : x = c := (by simpa using hx : c = x).symm
    subst hcx
    by_cases hc : p x
    · rw [List.dropWhile_cons_of_pos hc] at h
      have hle : (t.dropWhile p).length ≤ t.length := (List.dropWhile_sublist p).length_le
      have := congrArg List.length h
      simp only [List.length_cons] at this
      omega
    · exact hc

/-- Prepending `@` to a trim-fixed list leaves `jsTrimList` inert. -/
lemma jsTrimList_at_cons (l : List Char) (htrim : jsTrimList l = l) :
    jsTrimList ('@' :: l) = '@' :: l := by
  obtain ⟨h1, h2⟩ := trim_fixpoint_parts l htrim
  unfold jsTrimList
  rw [List.dropWhile_cons_of_neg (by decide : ¬isJsWs '@' = true)]
  rw [List.reverse_cons]
  cases hrev : l.reverse with
  | nil =>
    have hl : l = [] := by
      simpa using congrArg List.reverse hrev
    subst hl
    rfl
  | cons x xs =>
    rw [hrev] at h2
    have hx : ¬isJsWs x = true :=
      dropWhile_fixed_head (x :: xs) h2 x rfl
    show ((x :: xs ++ ['@']).dropWhile isJsWs).reverse = '@' :: l
    rw [List.cons_append, List.dropWhile_cons_of_neg hx, ← List.cons_append,
      ← hrev, List.reverse_append, List.reverse_reverse]
    rfl

/-- The input-cleanup step maps `cons of @ and u` and `u` to the same cleaned text
when `u` is already trimmed and does not itself start with `@`. -/
lemma cleanList_strip_at (l : List Char) (htrim : jsTrimList l = l)
    (hhead : l.head? ≠ some '@') : cleanList ('@' :: l) = cleanList l := by
  unfold cleanList
  rw [jsTrimList_at_cons l htrim, htrim]
  rw [if_pos (by rfl : ('@' :: l).head? = some '@'), if_neg hhead]
  rfl

/-- **C9 counterexample.** Stripping one `@` is *not* inverse to prepending
one for every untrimmed `u`: for `u = " @https://maps.google.com/maps/place/A"`
(which does not start with `@`, and `cons of @ and u` trimmed starts with exactly
one `@`), `resolve(at + u)` fails with `InvalidUrlError` while
`resolve(u)` succeeds with `"A"` — the extra cleanup pass that `u` receives
(trim then strip) is not replayed on the remainder of `at + u`. -/
theorem resolve_at_prefix_counterexample :
    (" @https://maps.google.com/maps/place/A" : String).data.head? ≠ some '@' ∧
    (jsTrimStr "@ @https://maps.google.com/maps/place/A").data.head? = some '@' ∧
    (jsTrimStr "@ @https://maps.google.com/maps/place/A").data.get? 1 = some ' ' ∧
    parseGoogleMapsUrl "@ @https://maps.google.com/maps/place/A" =
      Except.error ResolveError.invalidUrl ∧
    parseGoogleMapsUrl " @https://maps.google.com/maps/place/A" = Except.ok "A" ∧
    (Except.error ResolveError.invalidUrl : Except ResolveError String) ≠
      Except.ok "A" :=
  ⟨by decide, by decide, by decide, rfl, rfl, fun hcontra => Except.noConfusion hcontra⟩

/-- **C9 amended.** For every *trimmed* input `u` that does not start with
`@`, the resolver strips exactly one leading `@`:
`resolve('@' + u) = resolve(u)` (value or error alike).  The untrimmed case
fails (see the counterexample) because trimming happens before, not after,
the `@` strip. -/
theorem resolve_strips_one_leading_at (u : String)
    (htrim : jsTrimStr u = u) (hhead : u.data.head? ≠ some '@') :
    parseGoogleMapsUrl ("@" ++ u) = parseGoogleMapsUrl u := by
  have htriml : jsTrimList u.data = u.data := congrArg String.data htrim
  have hdata : ("@" ++ u).data = '@' :: u.data := rfl
  unfold parseGoogleMapsUrl
  rw [hdata, cleanList_strip_at u.data htriml hhead]

/-- **C9 amended witness.** The spec's own example pair: the short link with
and without the pasted `@`. -/
theorem resolve_strips_one_leading_at_witness :
    jsTrimStr "https://maps.app.goo.gl/abc123" = "https://maps.app.goo.gl/abc123" ∧
      ("https://maps.app.goo.gl/abc123" : String).data.head? ≠ some '@' ∧
      parseGoogleMapsUrl ("@" ++ "https://maps.app.goo.gl/abc123") =
        parseGoogleMapsUrl "https://maps.app.goo.gl/abc123" :=
  ⟨rfl, by decide,
    resolve_strips_one_leading_at "https://maps.app.goo.gl/abc123" rfl (by decide)⟩

end ReviewScope
